import Mathlib

/-!
Shallow embedding of the task-orchestration core of `ai_metaverse`
(`src/ai_metaverse/orchestrator.py`, class `AIMetaverseOrchestrator`).

Python dicts keyed by strings are modelled as association lists
(`List (String × α)`) with first-match lookup; `dict.get` is `dictGet`,
`d[k] = v` is `dictSet` (replace-or-append), and in-place mutation of an
existing entry is `dictUpdate`.  Machine details that the orchestrator never
branches on (floats in timestamps, the AWS client, printing) are modelled as
plain `Nat`s or omitted.  Worker bodies (`assistants/*.py`) are external to
the orchestrator: a worker invocation is an environment
`WorkerEnv : String → OrchTask → WorkerOutcome` where `WorkerOutcome.exn`
models a raised exception.
-/

/-- First-match lookup on an association list; models Python `dict.get(k)`
(`None` when absent). -/
def dictGet {α : Type} (m : List (String × α)) (k : String) : Option α :=
  match m with
  | [] => none
  | (k', v) :: rest => if k' = k then some v else dictGet rest k

/-- Models Python `d[k] = v`: replace the first binding of `k`, or append a
new binding when `k` is absent. -/
def dictSet {α : Type} (m : List (String × α)) (k : String) (v : α) : List (String × α) :=
  match m with
  | [] => [(k, v)]
  | (k', v') :: rest => if k' = k then (k', v) :: rest else (k', v') :: dictSet rest k v

/-- Models in-place mutation of the entry at `k` (`d[k].field = ...`); a
no-op when `k` is absent. -/
def dictUpdate {α : Type} (m : List (String × α)) (k : String) (f : α → α) : List (String × α) :=
  match m with
  | [] => []
  | (k', v) :: rest => if k' = k then (k', f v) :: rest else (k', v) :: dictUpdate rest k f

/-- Result dict returned by a worker's `process_task` (or synthesised by the
dispatcher on exception).  Each field models `.get` on the corresponding key,
so every field is optional: `status`, the dispatcher-written `error`, Earth's
`generated_code`, Moon's `errors`, Sun's `performance_analysis`. -/
structure WorkerResult where
  status : Option String := none
  error : Option String := none
  generated_code : Option String := none
  errors : Option String := none
  performance_analysis : Option String := none
deriving Repr, DecidableEq

/-- Outcome of calling a worker: a returned dict, or a raised exception with
its message. -/
inductive WorkerOutcome where
  | ok (result : WorkerResult)
  | exn (msg : String)
deriving Repr, DecidableEq

/-- A task dict as it sits in `self.task_queue` after `submit_task` filled in
`task_id`, `status`, `timestamp` and `assigned_assistants`; `type?` models
`task.get('type', '')` returning the key's value when present, and `payload`
the remaining opaque keys. -/
structure OrchTask where
  task_id : String
  type? : Option String
  payload : List (String × String)
  status : String
  timestamp : Nat
  assigned_assistants : List String
deriving Repr, DecidableEq

/-- Environment giving each (worker name, task) invocation its outcome. -/
abbrev WorkerEnv := String → OrchTask → WorkerOutcome

/-- The caller-supplied task dict handed to `submit_task`: a `type` key (or
not) plus opaque payload. -/
structure TaskInput where
  type? : Option String
  payload : List (String × String) := []
deriving Repr, DecidableEq

/-- The combined result built by `_combine_results`: `status`, `timestamp`,
`components` (the per-worker map), and the three conditionally-added
extraction keys — outer `Option` is key presence (`'Earth' in
assistant_results` etc.), inner is the worker dict's own `.get`.
`validation` models the `syntax_validation` key. -/
structure CombinedResult where
  status : String
  timestamp : Nat
  components : List (String × WorkerResult)
  generated_code : Option (Option String)
  validation : Option (Option String)
  performance_analysis : Option (Option String)
deriving Repr, DecidableEq

/-- A feedback dict: `assistant_feedback` models
`feedback.get('assistant_feedback', {})` as (worker name, opaque sub-payload)
pairs. -/
structure Feedback where
  assistant_feedback : List (String × String)
deriving Repr, DecidableEq

/-- One entry of `self.results`: per-task record with `status`,
`assistant_results`, `final_result`, and the `feedback` key written by
`handle_feedback` (absent until then). -/
structure TaskRecord where
  status : String
  assistant_results : List (String × WorkerResult)
  final_result : Option CombinedResult
  feedback : Option Feedback
deriving Repr, DecidableEq

/-- Orchestrator state: the registry `self.assistants` (names only — the
handles' behaviour lives in the `WorkerEnv`), `self.task_queue`, and
`self.results`. -/
structure Orchestrator where
  assistants : List String
  task_queue : List OrchTask
  results : List (String × TaskRecord)
deriving Repr, DecidableEq

/-- State after `__init__`/`initialize_assistants`: of the seven configured
assistants only Earth, Moon and Sun have classes, so exactly those are
registered; queue and results start empty. -/
def initOrchestrator : Orchestrator :=
  { assistants := ["Earth", "Moon", "Sun"], task_queue := [], results := [] }

/-- The static `task_assistant_mapping` table of
`_determine_required_assistants`. -/
def taskAssistantMapping : List (String × List String) :=
  [("code_generation", ["Earth"]),
   ("syntax_check", ["Moon"]),
   ("performance_optimization", ["Sun"]),
   ("full_pipeline", ["Earth", "Moon", "Sun"])]

/-- `_determine_required_assistants`: `task.get('type', '')` looked up in the
static table, defaulting to `['Earth']`. -/
def determineRequiredAssistants (task : TaskInput) : List String :=
  let task_type := task.type?.getD ""
  (dictGet taskAssistantMapping task_type).getD ["Earth"]

/-- `submit_task`: builds `task_id = f"task_{int(time.time())}_{len(self.task_queue)}"`
(`now` models `int(time.time())`), fills in the task dict, appends it to the
queue, and stores a fresh pending record in `self.results`. -/
def submitTask (now : Nat) (input : TaskInput) (o : Orchestrator) : String × Orchestrator :=
  let task_id := "task_" ++ toString now ++ "_" ++ toString o.task_queue.length
  let task : OrchTask :=
    { task_id := task_id, type? := input.type?, payload := input.payload,
      status := "pending", timestamp := now,
      assigned_assistants := determineRequiredAssistants input }
  (task_id,
   { o with
       task_queue := o.task_queue ++ [task],
       results := dictSet o.results task_id
         { status := "pending", assistant_results := [], final_result := none,
           feedback := none } })

/-- `_process_task_with_assistant`: looks the name up in the registry,
raising `ValueError` when absent, otherwise invoking the worker. -/
def processTaskWithAssistant (env : WorkerEnv) (assistants : List String)
    (task : OrchTask) (assistant_name : String) : WorkerOutcome :=
  if assistants.contains assistant_name then env assistant_name task
  else .exn ("Assistant " ++ assistant_name ++ " not found")

/-- The error dict the dispatcher stores when a worker invocation raises:
`{'status': 'error', 'error': str(e)}`. -/
def errorResult (msg : String) : WorkerResult :=
  { status := some ("error"), error := some msg }

/-- The per-worker result actually stored for one invocation: the returned
dict on success, `errorResult` on exception. -/
def workerResultFor (env : WorkerEnv) (assistants : List String)
    (task : OrchTask) (assistant_name : String) : WorkerResult :=
  match processTaskWithAssistant env assistants task assistant_name with
  | .ok r => r
  | .exn msg => errorResult msg

/-- Store one worker's result under
`self.results[task_id]['assistant_results'][assistant_name]`.  (In the source
an absent `task_id` would be a `KeyError`; that is unreachable through the
public API, and the model leaves the state unchanged there.) -/
def storeAssistantResult (o : Orchestrator) (task_id assistant_name : String)
    (r : WorkerResult) : Orchestrator :=
  { o with results := (dictUpdate o.results task_id
      (fun rec => { rec with assistant_results := dictSet rec.assistant_results assistant_name r })) }

/-- `_combine_results`: reads the task's record, computes `all_successful`
over the per-worker map, builds the combined dict with the three
conditionally-present extraction keys, and writes `status`/`final_result`
back onto the record.  (An absent `task_id` would be a `KeyError` in the
source, unreachable through the public API; the model returns the state
unchanged there.)  `combinedResultFor` is the combined dict built from the
per-worker map; `combineResults` writes it back onto the record. -/
def combinedResultFor (now : Nat) (assistant_results : List (String × WorkerResult)) :
    CombinedResult :=
  let all_successful := assistant_results.all (fun p => p.2.status == some ("success"))
  { status := if all_successful then "success" else "partial_success",
    timestamp := now,
    components := assistant_results,
    generated_code := (dictGet assistant_results "Earth").map (fun r => r.generated_code),
    validation := (dictGet assistant_results "Moon").map (fun r => r.errors),
    performance_analysis := (dictGet assistant_results "Sun").map (fun r => r.performance_analysis) }

def combineResults (now : Nat) (o : Orchestrator) (task_id : String) : Orchestrator :=
  match dictGet o.results task_id with
  | none => o
  | some task_results =>
    let combined := combinedResultFor now task_results.assistant_results
    { o with results := (dictUpdate o.results task_id
        (fun rec => { rec with status := combined.status, final_result := some combined })) }

/-- The result-collection loop of `process_tasks` for one task: each listed
worker is invoked (`workerResultFor` captures a raised exception as an
`errorResult`) and its result stored under the task's record.  The source
runs the invocations concurrently but collects and stores results
sequentially in assignment order, which this loop reproduces. -/
def storeLoop (env : WorkerEnv) (task : OrchTask) (o : Orchestrator) : List String → Orchestrator
  | [] => o
  | assistant_name :: rest =>
    storeLoop env task
      (storeAssistantResult o task.task_id assistant_name
        (workerResultFor env o.assistants task assistant_name)) rest

/-- Handling of one dequeued task inside `process_tasks`: all assigned
workers report (success or captured error), then `_combine_results` runs
once all are present (the per-task barrier). -/
def processOneTask (env : WorkerEnv) (now : Nat) (o : Orchestrator) (task : OrchTask) : Orchestrator :=
  combineResults now (storeLoop env task o task.assigned_assistants) task.task_id

/-- The `while self.task_queue:` loop body iterated over an explicit list of
dequeued tasks (nothing re-enqueues during processing, so the drained queue
is exactly the queue at call time, in FIFO order). -/
def processList (env : WorkerEnv) (now : Nat) (o : Orchestrator) : List OrchTask → Orchestrator
  | [] => o
  | task :: rest => processList env now (processOneTask env now o task) rest

/-- `process_tasks`: drains the whole queue front-first, handling each task
via `processOneTask`. -/
def processTasks (env : WorkerEnv) (now : Nat) (o : Orchestrator) : Orchestrator :=
  processList env now { o with task_queue := [] } o.task_queue

/-- Return value of `get_task_status`: either the task's record or the
structured not-found dict `{'status': 'not_found', 'error': ...}`. -/
inductive TaskStatusResponse where
  | record (rec : TaskRecord)
  | notFound (error : String)
deriving Repr, DecidableEq

/-- The `status` field of a `get_task_status` response. -/
def TaskStatusResponse.statusField : TaskStatusResponse → String
  | .record rec => rec.status
  | .notFound _ => "not_found"

/-- `get_task_status`: `self.results.get(task_id, {'status': 'not_found',
'error': f'Task {task_id} not found'})`.  A pure, total read. -/
def getTaskStatus (o : Orchestrator) (task_id : String) : TaskStatusResponse :=
  match dictGet o.results task_id with
  | some rec => .record rec
  | none => .notFound ("Task " ++ task_id ++ " not found")

/-- `handle_feedback`: when the id exists, forwards each `assistant_feedback`
entry whose worker name is registered to that worker's `handle_feedback`
(returned as the delivery list; unregistered names are skipped), stores the
feedback on the record and sets its status to `completed_with_feedback`.
When the id is absent, nothing happens. -/
def handleFeedback (o : Orchestrator) (task_id : String) (feedback : Feedback) :
    Orchestrator × List (String × String) :=
  if (dictGet o.results task_id).isSome then
    let deliveries := feedback.assistant_feedback.filter
      (fun p => o.assistants.contains p.1)
    ({ o with results := (dictUpdate o.results task_id
         (fun rec => { rec with feedback := some feedback, status := "completed_with_feedback" })) },
     deliveries)
  else (o, [])

/-- Return value of `get_assistant_status` (capabilities come from the static
config table and are irrelevant to the orchestrator's control flow, so they
are not modelled). -/
structure AssistantStatus where
  status : String
  current_load : Option Nat
  error : Option String
deriving Repr, DecidableEq

/-- `get_assistant_status`: active with the count of pending tasks naming
this worker, or the structured not-found dict. -/
def getAssistantStatus (o : Orchestrator) (assistant_name : String) : AssistantStatus :=
  if o.assistants.contains assistant_name then
    { status := "active",
      current_load := some ((o.task_queue.filter
        (fun t => t.assigned_assistants.contains assistant_name)).length),
      error := none }
  else
    { status := "not_found", current_load := none,
      error := some ("Assistant " ++ assistant_name ++ " not found") }

/-- Return value of `get_system_status`. -/
structure SystemStatus where
  active_assistants : Nat
  pending_tasks : Nat
  completed_tasks : Nat
  assistant_status : List (String × AssistantStatus)
deriving Repr, DecidableEq

/-- `get_system_status`: counts registered workers, pending tasks, and
results whose status is `success` or `completed_with_feedback`. -/
def getSystemStatus (o : Orchestrator) : SystemStatus :=
  { active_assistants := o.assistants.length,
    pending_tasks := o.task_queue.length,
    completed_tasks := (o.results.filter
      (fun p => p.2.status == "success" || p.2.status == "completed_with_feedback")).length,
    assistant_status := o.assistants.map (fun n => (n, getAssistantStatus o n)) }

/-- One public mutating operation of the orchestrator, with its call-time
parameters (`now` is the clock reading, `env` the workers' behaviour for
that call). -/
inductive Step : Orchestrator → Orchestrator → Prop
  | submit (now : Nat) (input : TaskInput) (o : Orchestrator) :
      Step o (submitTask now input o).2
  | process (env : WorkerEnv) (now : Nat) (o : Orchestrator) :
      Step o (processTasks env now o)
  | feedback (task_id : String) (fb : Feedback) (o : Orchestrator) :
      Step o (handleFeedback o task_id fb).1

/-- States reachable from a freshly initialized orchestrator through the
public mutating operations. -/
def Reachable (o : Orchestrator) : Prop :=
  Relation.ReflTransGen Step initOrchestrator o

/-- Net effect of `storeLoop` on the per-worker result map alone: each listed
worker's computed result is written into the map in order. -/
def storedResults (env : WorkerEnv) (assistants : List String) (task : OrchTask) :
    List String → List (String × WorkerResult) → List (String × WorkerResult)
  | [], ar => ar
  | n :: rest, ar =>
    storedResults env assistants task rest (dictSet ar n (workerResultFor env assistants task n))

/-- The four task-level statuses the orchestrator's operations can write
(`error` is deliberately not among them). -/
def statusOk (s : String) : Prop :=
  s = "pending" ∨ s = "success" ∨ s = "partial_success" ∨ s = "completed_with_feedback"

/-- The record at `id`, if any, carries a post-aggregation status. -/
def FinalizedAt (o : Orchestrator) (id : String) : Prop :=
  ∀ rec, dictGet o.results id = some rec →
    rec.status = "success" ∨ rec.status = "partial_success"

/-- How task statuses may change across one results-store transformation:
every visible record either keeps the status it already had, or carries one
of the four writable statuses. -/
def StatusEvolution (m m' : List (String × TaskRecord)) : Prop :=
  ∀ id rec', dictGet m' id = some rec' →
    (∃ rec, dictGet m id = some rec ∧ rec'.status = rec.status) ∨ statusOk rec'.status

/-- Every visible record's status is one of the four writable statuses. -/
def StatusesOk (o : Orchestrator) : Prop :=
  ∀ id rec, dictGet o.results id = some rec → statusOk rec.status

/-- Fixture: a `code_generation` submission. -/
def cgInput : TaskInput := { type? := some ("code_generation") }

/-- Fixture: a `full_pipeline` submission. -/
def fpInput : TaskInput := { type? := some ("full_pipeline") }

/-- Fixture: every worker invocation returns `{'status': 'success'}`. -/
def envAllOk : WorkerEnv := fun _ _ => .ok { status := some ("success") }

/-- Fixture: Earth's invocation raises, the others succeed. -/
def envEarthFails : WorkerEnv :=
  fun n _ => if n = "Earth" then .exn ("Earth exploded") else .ok { status := some ("success") }

/-- Fixture: Moon's invocation raises, the others succeed. -/
def envMoonFails : WorkerEnv :=
  fun n _ => if n = "Moon" then .exn ("Moon crashed") else .ok { status := some ("success") }

/-- Fixture: an empty feedback payload. -/
def fbEmpty : Feedback := { assistant_feedback := [] }

/-- Fixture: feedback naming one registered worker (Earth) and one
unregistered name (Pluto). -/
def fbMixed : Feedback := { assistant_feedback := [("Earth", "good"), ("Pluto", "bad")] }

/-- Fixture record: the fresh pending record `submit_task` creates. -/
def recFresh : TaskRecord :=
  { status := "pending", assistant_results := [], final_result := none, feedback := none }

/-- Fixture record: one successful Earth result, not yet combined. -/
def recPendingEarth : TaskRecord :=
  { status := "pending", assistant_results := [("Earth", { status := some ("success") })],
    final_result := none, feedback := none }

/-- Fixture state holding `recPendingEarth` under id `t1`. -/
def oPendingEarth : Orchestrator :=
  { assistants := ["Earth", "Moon", "Sun"], task_queue := [],
    results := [("t1", recPendingEarth)] }

/-- Fixture record with status `partial_success`. -/
def recPartial : TaskRecord :=
  { status := "partial_success", assistant_results := [], final_result := none,
    feedback := none }

/-- Fixture state holding `recPartial` under id `t1`. -/
def oPartial : Orchestrator :=
  { assistants := ["Earth", "Moon", "Sun"], task_queue := [], results := [("t1", recPartial)] }

/-- Fixture record with status `success`. -/
def recSuccess : TaskRecord :=
  { status := "success", assistant_results := [], final_result := none, feedback := none }

/-- Fixture state holding `recSuccess` under id `t1`. -/
def oSuccess : Orchestrator :=
  { assistants := ["Earth", "Moon", "Sun"], task_queue := [], results := [("t1", recSuccess)] }

/-- The record `handle_feedback` makes of `recSuccess` with `fbEmpty`. -/
def recSuccessFb : TaskRecord :=
  { status := "completed_with_feedback", assistant_results := [], final_result := none,
    feedback := some fbEmpty }

/-- The queued task created by submitting `fpInput` at time 0. -/
def tFullPipeline : OrchTask :=
  { task_id := "task_0_0", type? := some ("full_pipeline"), payload := [],
    status := "pending", timestamp := 0, assigned_assistants := ["Earth", "Moon", "Sun"] }

/-- State after submitting `fpInput` to a fresh orchestrator at time 0. -/
def oAfterSubmitFP : Orchestrator := (submitTask 0 fpInput initOrchestrator).2

theorem dictGet_dictSet_self {α : Type} (m : List (String × α)) (k : String) (v : α) :
    dictGet (dictSet m k v) k = some v := by
  induction m with
  | nil => simp [dictGet, dictSet]
  | cons p rest ih =>
    obtain ⟨k', v'⟩ := p
    by_cases h : k' = k
    · simp [dictGet, dictSet, h]
    · simp [dictGet, dictSet, h, ih]

theorem dictGet_dictSet_ne {α : Type} (m : List (String × α)) (k k' : String) (v : α)
    (h : k' ≠ k) : dictGet (dictSet m k v) k' = dictGet m k' := by
  induction m with
  | nil => simp [dictGet, dictSet, Ne.symm h]
  | cons p rest ih =>
    obtain ⟨k'', v'⟩ := p
    by_cases h2 : k'' = k
    · subst h2
      simp [dictGet, dictSet, Ne.symm h]
    · simp [dictGet, dictSet, h2, ih]

theorem dictGet_dictUpdate_self {α : Type} (m : List (String × α)) (k : String) (f : α → α) :
    dictGet (dictUpdate m k f) k = (dictGet m k).map f := by
  induction m with
  | nil => simp [dictGet, dictUpdate]
  | cons p rest ih =>
    obtain ⟨k', v⟩ := p
    by_cases h : k' = k
    · simp [dictGet, dictUpdate, h]
    · simp [dictGet, dictUpdate, h, ih]

theorem dictGet_dictUpdate_ne {α : Type} (m : List (String × α)) (k k' : String) (f : α → α)
    (h : k' ≠ k) : dictGet (dictUpdate m k f) k' = dictGet m k' := by
  induction m with
  | nil => simp [dictGet, dictUpdate]
  | cons p rest ih =>
    obtain ⟨k'', v⟩ := p
    by_cases h2 : k'' = k
    · subst h2
      simp [dictGet, dictUpdate, Ne.symm h]
    · simp [dictGet, dictUpdate, h2, ih]

theorem dictGet_mem {α : Type} {m : List (String × α)} {k : String} {v : α}
    (h : dictGet m k = some v) : (k, v) ∈ m := by
  induction m with
  | nil => simp [dictGet] at h
  | cons p rest ih =>
    obtain ⟨k', v'⟩ := p
    by_cases h2 : k' = k
    · subst h2
      simp [dictGet] at h
      simp [h]
    · simp [dictGet, h2] at h
      exact List.mem_cons_of_mem _ (ih h)

theorem storedResults_dictGet_not_mem (env : WorkerEnv) (a : List String) (t : OrchTask)
    (names : List String) (n : String) (h : n ∉ names) :
    ∀ ar, dictGet (storedResults env a t names ar) n = dictGet ar n := by
  induction names with
  | nil => intro ar; rfl
  | cons k rest ih =>
    intro ar
    have hser : storedResults env a t (k :: rest) ar
        = storedResults env a t rest (dictSet ar k (workerResultFor env a t k)) := rfl
    have hnk : n ≠ k := fun e => h (by simp [e])
    rw [hser, ih (fun hm => h (List.mem_cons_of_mem _ hm)),
      dictGet_dictSet_ne _ _ _ _ hnk]

theorem storedResults_dictGet_mem (env : WorkerEnv) (a : List String) (t : OrchTask)
    (names : List String) (n : String) (h : n ∈ names) :
    ∀ ar, dictGet (storedResults env a t names ar) n = some (workerResultFor env a t n) := by
  induction names with
  | nil => cases h
  | cons k rest ih =>
    intro ar
    have hser : storedResults env a t (k :: rest) ar
        = storedResults env a t rest (dictSet ar k (workerResultFor env a t k)) := rfl
    by_cases hm : n ∈ rest
    · rw [hser]; exact ih hm _
    · have hk : n = k := by
        rcases List.mem_cons.mp h with h1 | h2
        · exact h1
        · exact absurd h2 hm
      subst hk
      rw [hser, storedResults_dictGet_not_mem env a t rest n hm, dictGet_dictSet_self]

theorem storeAssistantResult_assistants (o : Orchestrator) (tid n : String) (r : WorkerResult) :
    (storeAssistantResult o tid n r).assistants = o.assistants := rfl

theorem storeAssistantResult_queue (o : Orchestrator) (tid n : String) (r : WorkerResult) :
    (storeAssistantResult o tid n r).task_queue = o.task_queue := rfl

theorem storeLoop_assistants (env : WorkerEnv) (t : OrchTask) (names : List String) :
    ∀ o, (storeLoop env t o names).assistants = o.assistants := by
  induction names with
  | nil => intro o; rfl
  | cons k rest ih => intro o; exact ih _

theorem storeLoop_queue (env : WorkerEnv) (t : OrchTask) (names : List String) :
    ∀ o, (storeLoop env t o names).task_queue = o.task_queue := by
  induction names with
  | nil => intro o; rfl
  | cons k rest ih => intro o; exact ih _

theorem storeLoop_dictGet_ne (env : WorkerEnv) (t : OrchTask) (names : List String)
    (id : String) (h : id ≠ t.task_id) :
    ∀ o, dictGet (storeLoop env t o names).results id = dictGet o.results id := by
  induction names with
  | nil => intro o; rfl
  | cons k rest ih =>
    intro o
    rw [show storeLoop env t o (k :: rest)
        = storeLoop env t (storeAssistantResult o t.task_id k
            (workerResultFor env o.assistants t k)) rest from rfl, ih]
    exact dictGet_dictUpdate_ne _ _ _ _ h

theorem storeLoop_dictGet_self (env : WorkerEnv) (t : OrchTask) (names : List String) :
    ∀ o, dictGet (storeLoop env t o names).results t.task_id
      = (dictGet o.results t.task_id).map
          (fun rec => { rec with
            assistant_results := storedResults env o.assistants t names rec.assistant_results }) := by
  induction names with
  | nil =>
    intro o
    cases hg : dictGet o.results t.task_id <;> simp [storeLoop, storedResults, hg]
  | cons k rest ih =>
    intro o
    rw [show storeLoop env t o (k :: rest)
        = storeLoop env t (storeAssistantResult o t.task_id k
            (workerResultFor env o.assistants t k)) rest from rfl, ih]
    simp only [storeAssistantResult]
    rw [dictGet_dictUpdate_self]
    cases hg : dictGet o.results t.task_id <;> simp [storedResults, hg]

theorem combineResults_assistants (now : Nat) (o : Orchestrator) (task_id : String) :
    (combineResults now o task_id).assistants = o.assistants := by
  unfold combineResults
  cases dictGet o.results task_id <;> rfl

theorem combineResults_queue (now : Nat) (o : Orchestrator) (task_id : String) :
    (combineResults now o task_id).task_queue = o.task_queue := by
  unfold combineResults
  cases dictGet o.results task_id <;> rfl

theorem combineResults_dictGet_ne (now : Nat) (o : Orchestrator) (task_id id : String)
    (h : id ≠ task_id) :
    dictGet (combineResults now o task_id).results id = dictGet o.results id := by
  unfold combineResults
  cases hg : dictGet o.results task_id with
  | none => rfl
  | some rec => exact dictGet_dictUpdate_ne _ _ _ _ h

theorem combineResults_dictGet_self (now : Nat) (o : Orchestrator) (task_id : String)
    (rec : TaskRecord) (hg : dictGet o.results task_id = some rec) :
    dictGet (combineResults now o task_id).results task_id
      = some ({ rec with status := (combinedResultFor now rec.assistant_results).status, final_result := some (combinedResultFor now rec.assistant_results) }) := by
  unfold combineResults
  rw [hg]
  show dictGet (dictUpdate o.results task_id _) task_id = _
  rw [dictGet_dictUpdate_self, hg]
  rfl

theorem processOneTask_assistants (env : WorkerEnv) (now : Nat) (o : Orchestrator)
    (t : OrchTask) : (processOneTask env now o t).assistants = o.assistants := by
  unfold processOneTask
  rw [combineResults_assistants, storeLoop_assistants]

theorem processOneTask_queue (env : WorkerEnv) (now : Nat) (o : Orchestrator)
    (t : OrchTask) : (processOneTask env now o t).task_queue = o.task_queue := by
  unfold processOneTask
  rw [combineResults_queue, storeLoop_queue]

theorem processOneTask_dictGet_ne (env : WorkerEnv) (now : Nat) (o : Orchestrator)
    (t : OrchTask) (id : String) (h : id ≠ t.task_id) :
    dictGet (processOneTask env now o t).results id = dictGet o.results id := by
  unfold processOneTask
  rw [combineResults_dictGet_ne _ _ _ _ h, storeLoop_dictGet_ne _ _ _ _ h]

theorem processOneTask_dictGet_self (env : WorkerEnv) (now : Nat) (o : Orchestrator)
    (t : OrchTask) (rec : TaskRecord) (hg : dictGet o.results t.task_id = some rec) :
    dictGet (processOneTask env now o t).results t.task_id
      = some ({ rec with assistant_results := storedResults env o.assistants t t.assigned_assistants rec.assistant_results, status := (combinedResultFor now (storedResults env o.assistants t t.assigned_assistants rec.assistant_results)).status, final_result := some (combinedResultFor now (storedResults env o.assistants t t.assigned_assistants rec.assistant_results)) }) := by
  unfold processOneTask
  have h1 := storeLoop_dictGet_self env t t.assigned_assistants o
  rw [hg] at h1
  exact combineResults_dictGet_self now _ t.task_id _ h1

theorem processList_queue (env : WorkerEnv) (now : Nat) (q : List OrchTask) :
    ∀ o, (processList env now o q).task_queue = o.task_queue := by
  induction q with
  | nil => intro o; rfl
  | cons t rest ih =>
    intro o
    rw [show processList env now o (t :: rest)
        = processList env now (processOneTask env now o t) rest from rfl, ih,
      processOneTask_queue]

theorem processList_assistants (env : WorkerEnv) (now : Nat) (q : List OrchTask) :
    ∀ o, (processList env now o q).assistants = o.assistants := by
  induction q with
  | nil => intro o; rfl
  | cons t rest ih =>
    intro o
    rw [show processList env now o (t :: rest)
        = processList env now (processOneTask env now o t) rest from rfl, ih,
      processOneTask_assistants]

theorem processTasks_queue (env : WorkerEnv) (now : Nat) (o : Orchestrator) :
    (processTasks env now o).task_queue = [] := by
  unfold processTasks
  rw [processList_queue]

theorem processList_dictGet_ne_all (env : WorkerEnv) (now : Nat) (q : List OrchTask)
    (id : String) (h : ∀ t ∈ q, t.task_id ≠ id) :
    ∀ o, dictGet (processList env now o q).results id = dictGet o.results id := by
  induction q with
  | nil => intro o; rfl
  | cons t rest ih =>
    intro o
    rw [show processList env now o (t :: rest)
        = processList env now (processOneTask env now o t) rest from rfl,
      ih (fun t' ht' => h t' (List.mem_cons_of_mem _ ht')),
      processOneTask_dictGet_ne]
    exact fun e => h t (List.mem_cons_self _ _) e.symm

theorem processList_record (env : WorkerEnv) (now : Nat) (q : List OrchTask)
    (t : OrchTask) (ht : t ∈ q) (hnd : (q.map OrchTask.task_id).Nodup) :
    ∀ o rec, dictGet o.results t.task_id = some rec →
    dictGet (processList env now o q).results t.task_id
      = some ({ rec with assistant_results := storedResults env o.assistants t t.assigned_assistants rec.assistant_results, status := (combinedResultFor now (storedResults env o.assistants t t.assigned_assistants rec.assistant_results)).status, final_result := some (combinedResultFor now (storedResults env o.assistants t t.assigned_assistants rec.assistant_results)) }) := by
  induction q with
  | nil => cases ht
  | cons t0 rest ih =>
    intro o rec hg
    rw [show processList env now o (t0 :: rest)
        = processList env now (processOneTask env now o t0) rest from rfl]
    have hnd' : (rest.map OrchTask.task_id).Nodup := (List.nodup_cons.mp hnd).2
    have hhead : t0.task_id ∉ rest.map OrchTask.task_id := (List.nodup_cons.mp hnd).1
    rcases List.mem_cons.mp ht with he | hr
    · subst he
      rw [processList_dictGet_ne_all env now rest t.task_id
          (fun t' ht' e => hhead (e ▸ List.mem_map_of_mem OrchTask.task_id ht'))]
      exact processOneTask_dictGet_self env now o t rec hg
    · have hne : t.task_id ≠ t0.task_id := by
        intro e
        exact hhead (e ▸ List.mem_map_of_mem OrchTask.task_id hr)
      have hg' : dictGet (processOneTask env now o t0).results t.task_id = some rec := by
        rw [processOneTask_dictGet_ne env now o t0 t.task_id hne]
        exact hg
      have := ih hr hnd' (processOneTask env now o t0) rec hg'
      rw [processOneTask_assistants] at this
      exact this

theorem processTasks_record (env : WorkerEnv) (now : Nat) (o : Orchestrator)
    (t : OrchTask) (ht : t ∈ o.task_queue)
    (hnd : (o.task_queue.map OrchTask.task_id).Nodup)
    (rec : TaskRecord) (hg : dictGet o.results t.task_id = some rec) :
    dictGet (processTasks env now o).results t.task_id
      = some ({ rec with assistant_results := storedResults env o.assistants t t.assigned_assistants rec.assistant_results, status := (combinedResultFor now (storedResults env o.assistants t t.assigned_assistants rec.assistant_results)).status, final_result := some (combinedResultFor now (storedResults env o.assistants t t.assigned_assistants rec.assistant_results)) }) := by
  unfold processTasks
  exact processList_record env now o.task_queue t ht hnd _ rec hg

theorem combinedResultFor_status (now : Nat) (ar : List (String × WorkerResult)) :
    (combinedResultFor now ar).status = "success" ∨
    (combinedResultFor now ar).status = "partial_success" := by
  unfold combinedResultFor
  by_cases h : ar.all (fun p => p.2.status == some ("success"))
  · left; simp [h]
  · right; simp [h]

theorem combineResults_finalizedAt (now : Nat) (o : Orchestrator) (task_id : String) :
    FinalizedAt (combineResults now o task_id) task_id := by
  intro rec' h
  cases hg : dictGet o.results task_id with
  | none =>
    unfold combineResults at h
    rw [hg] at h
    simp only at h
    rw [h] at hg
    cases hg
  | some rec =>
    rw [combineResults_dictGet_self now o task_id rec hg] at h
    cases h
    exact combinedResultFor_status now rec.assistant_results

theorem processOneTask_finalizedAt_self (env : WorkerEnv) (now : Nat) (o : Orchestrator)
    (t : OrchTask) : FinalizedAt (processOneTask env now o t) t.task_id :=
  combineResults_finalizedAt now (storeLoop env t o t.assigned_assistants) t.task_id

theorem processOneTask_finalizedAt_preserve (env : WorkerEnv) (now : Nat) (o : Orchestrator)
    (t : OrchTask) (id : String) (h : FinalizedAt o id) :
    FinalizedAt (processOneTask env now o t) id := by
  by_cases he : id = t.task_id
  · subst he
    exact processOneTask_finalizedAt_self env now o t
  · intro rec hrec
    rw [processOneTask_dictGet_ne env now o t id he] at hrec
    exact h rec hrec

theorem processList_finalizedAt_preserve (env : WorkerEnv) (now : Nat) (q : List OrchTask)
    (id : String) : ∀ o, FinalizedAt o id → FinalizedAt (processList env now o q) id := by
  induction q with
  | nil => intro o h; exact h
  | cons t rest ih =>
    intro o h
    exact ih _ (processOneTask_finalizedAt_preserve env now o t id h)

theorem processList_finalizedAt_mem (env : WorkerEnv) (now : Nat) (q : List OrchTask)
    (t : OrchTask) (ht : t ∈ q) :
    ∀ o, FinalizedAt (processList env now o q) t.task_id := by
  induction q with
  | nil => cases ht
  | cons t0 rest ih =>
    intro o
    rcases List.mem_cons.mp ht with he | hr
    · subst he
      exact processList_finalizedAt_preserve env now rest t.task_id _
        (processOneTask_finalizedAt_self env now o t)
    · exact ih hr _

theorem processTasks_finalizedAt (env : WorkerEnv) (now : Nat) (o : Orchestrator)
    (t : OrchTask) (ht : t ∈ o.task_queue) :
    FinalizedAt (processTasks env now o) t.task_id :=
  processList_finalizedAt_mem env now o.task_queue t ht _

theorem statusEvolution_trans {m1 m2 m3 : List (String × TaskRecord)}
    (h12 : StatusEvolution m1 m2) (h23 : StatusEvolution m2 m3) :
    StatusEvolution m1 m3 := by
  intro id rec' h
  rcases h23 id rec' h with ⟨rec2, hg2, hst⟩ | hok
  · rcases h12 id rec2 hg2 with ⟨rec1, hg1, hst1⟩ | hok2
    · exact .inl ⟨rec1, hg1, hst.trans hst1⟩
    · right
      rw [hst]
      exact hok2
  · exact .inr hok

theorem submitTask_statusEvolution (now : Nat) (input : TaskInput) (o : Orchestrator) :
    StatusEvolution o.results ((submitTask now input o).2).results := by
  intro id rec' h
  simp only [submitTask] at h
  by_cases he : id = ("task_" ++ toString now ++ "_" ++ toString o.task_queue.length)
  · subst he
    rw [dictGet_dictSet_self] at h
    cases h
    right
    left
    rfl
  · rw [dictGet_dictSet_ne _ _ _ _ he] at h
    exact .inl ⟨rec', h, rfl⟩

theorem storeAssistantResult_statusEvolution (o : Orchestrator) (tid n : String)
    (r : WorkerResult) :
    StatusEvolution o.results (storeAssistantResult o tid n r).results := by
  intro id rec' h
  simp only [storeAssistantResult] at h
  by_cases he : id = tid
  · subst he
    rw [dictGet_dictUpdate_self] at h
    cases hg : dictGet o.results id with
    | none => rw [hg] at h; cases h
    | some rec =>
      rw [hg] at h
      rw [Option.map_some'] at h
      injection h with h2
      exact .inl ⟨rec, hg ▸ rfl, by rw [← h2]⟩
  · rw [dictGet_dictUpdate_ne _ _ _ _ he] at h
    exact .inl ⟨rec', h, rfl⟩

theorem storeLoop_statusEvolution (env : WorkerEnv) (t : OrchTask) (names : List String) :
    ∀ o, StatusEvolution o.results (storeLoop env t o names).results := by
  induction names with
  | nil => intro o id rec' h; exact .inl ⟨rec', h, rfl⟩
  | cons k rest ih =>
    intro o
    exact statusEvolution_trans
      (storeAssistantResult_statusEvolution o t.task_id k
        (workerResultFor env o.assistants t k))
      (ih _)

theorem combineResults_statusEvolution (now : Nat) (o : Orchestrator) (task_id : String) :
    StatusEvolution o.results (combineResults now o task_id).results := by
  intro id rec' h
  cases hg : dictGet o.results task_id with
  | none =>
    unfold combineResults at h
    rw [hg] at h
    simp only at h
    exact .inl ⟨rec', h, rfl⟩
  | some rec =>
    by_cases he : id = task_id
    · subst he
      rw [combineResults_dictGet_self now o id rec hg] at h
      cases h
      right
      rcases combinedResultFor_status now rec.assistant_results with h1 | h1
      · right; left; exact h1
      · right; right; left; exact h1
    · rw [combineResults_dictGet_ne _ _ _ _ he] at h
      exact .inl ⟨rec', h, rfl⟩

theorem processOneTask_statusEvolution (env : WorkerEnv) (now : Nat) (o : Orchestrator)
    (t : OrchTask) : StatusEvolution o.results (processOneTask env now o t).results :=
  statusEvolution_trans (storeLoop_statusEvolution env t t.assigned_assistants o)
    (combineResults_statusEvolution now (storeLoop env t o t.assigned_assistants) t.task_id)

theorem processList_statusEvolution (env : WorkerEnv) (now : Nat) (q : List OrchTask) :
    ∀ o, StatusEvolution o.results (processList env now o q).results := by
  induction q with
  | nil => intro o id rec' h; exact .inl ⟨rec', h, rfl⟩
  | cons t rest ih =>
    intro o
    exact statusEvolution_trans (processOneTask_statusEvolution env now o t) (ih _)

theorem processTasks_statusEvolution (env : WorkerEnv) (now : Nat) (o : Orchestrator) :
    StatusEvolution o.results (processTasks env now o).results :=
  processList_statusEvolution env now o.task_queue _

theorem handleFeedback_statusEvolution (o : Orchestrator) (task_id : String) (fb : Feedback) :
    StatusEvolution o.results ((handleFeedback o task_id fb).1).results := by
  intro id rec' h
  unfold handleFeedback at h
  by_cases hs : (dictGet o.results task_id).isSome
  · rw [if_pos hs] at h
    simp only at h
    by_cases he : id = task_id
    · subst he
      rw [dictGet_dictUpdate_self] at h
      cases hg : dictGet o.results id with
      | none => rw [hg] at h; cases h
      | some rec =>
        rw [hg] at h
        cases h
        right
        right
        right
        right
        rfl
    · rw [dictGet_dictUpdate_ne _ _ _ _ he] at h
      exact .inl ⟨rec', h, rfl⟩
  · rw [if_neg hs] at h
    exact .inl ⟨rec', h, rfl⟩

theorem step_statusEvolution {o o' : Orchestrator} (h : Step o o') :
    StatusEvolution o.results o'.results := by
  cases h with
  | submit now input o => exact submitTask_statusEvolution now input o
  | process env now o => exact processTasks_statusEvolution env now o
  | feedback task_id fb o => exact handleFeedback_statusEvolution o task_id fb

theorem statusesOk_of_step {o o' : Orchestrator} (h : StatusesOk o) (hs : Step o o') :
    StatusesOk o' := by
  intro id rec hrec
  rcases step_statusEvolution hs id rec hrec with ⟨rec0, hg, hst⟩ | hok
  · rw [hst]
    exact h id rec0 hg
  · exact hok

theorem reachable_statusesOk {o : Orchestrator} (h : Reachable o) : StatusesOk o := by
  induction h with
  | refl =>
    intro id rec hrec
    cases hrec
  | tail hsteps hstep ih => exact statusesOk_of_step ih hstep

theorem filter_length_dictUpdate {α : Type} (P : String × α → Bool) (m : List (String × α))
    (k : String) (f : α → α) (v : α) (hg : dictGet m k = some v) :
    ((dictUpdate m k f).filter P).length + (if P (k, v) then 1 else 0)
      = (m.filter P).length + (if P (k, f v) then 1 else 0) := by
  induction m with
  | nil => simp [dictGet] at hg
  | cons p rest ih =>
    obtain ⟨k', v'⟩ := p
    by_cases he : k' = k
    · subst he
      rw [show dictGet ((k', v') :: rest) k' = some v' by simp [dictGet]] at hg
      injection hg with hg
      subst hg
      rw [show dictUpdate ((k', v') :: rest) k' f = (k', f v') :: rest by simp [dictUpdate]]
      by_cases h1 : P (k', f v') <;> by_cases h2 : P (k', v') <;>
        simp [List.filter_cons, h1, h2]
    · rw [show dictGet ((k', v') :: rest) k = dictGet rest k by simp [dictGet, he]] at hg
      rw [show dictUpdate ((k', v') :: rest) k f = (k', v') :: dictUpdate rest k f by
        simp [dictUpdate, he]]
      have hih := ih hg
      by_cases h1 : P (k', v') <;> simp [List.filter_cons, h1] <;> omega

theorem determineRequiredAssistants_ne_nil (input : TaskInput) :
    determineRequiredAssistants input ≠ [] := by
  show (dictGet taskAssistantMapping (input.type?.getD "")).getD ["Earth"] ≠ []
  cases hg : dictGet taskAssistantMapping (input.type?.getD "") with
  | none => simp
  | some v =>
    have hmem := dictGet_mem hg
    have hv : v ≠ [] := by
      simp [taskAssistantMapping] at hmem
      rcases hmem with ⟨_, hv⟩ | ⟨_, hv⟩ | ⟨_, hv⟩ | ⟨_, hv⟩ <;> subst hv <;> simp
    simpa using hv

theorem handleFeedback_dictGet_self (o : Orchestrator) (task_id : String) (fb : Feedback)
    (rec : TaskRecord) (hg : dictGet o.results task_id = some rec) :
    dictGet ((handleFeedback o task_id fb).1).results task_id
      = some ({ rec with feedback := some fb, status := "completed_with_feedback" }) := by
  unfold handleFeedback
  rw [if_pos (by rw [hg]; rfl)]
  show dictGet (dictUpdate o.results task_id _) task_id = _
  rw [dictGet_dictUpdate_self, hg]
  rfl

theorem handleFeedback_deliveries (o : Orchestrator) (task_id : String) (fb : Feedback)
    (hs : (dictGet o.results task_id).isSome) :
    (handleFeedback o task_id fb).2
      = fb.assistant_feedback.filter (fun p => o.assistants.contains p.1) := by
  unfold handleFeedback
  rw [if_pos hs]

/-- C1: for every task record, `_combine_results` stores a final result whose
status equals the new task status and whose components are the per-worker
result map, and that status is `success` iff every per-worker result's
status is `success` — in every other case (mixed or all-error) it is
`partial_success`. -/
theorem c1_aggregation_rule (now : Nat) (o : Orchestrator) (task_id : String)
    (rec : TaskRecord) (hg : dictGet o.results task_id = some rec) :
    ∃ rec' cr, dictGet (combineResults now o task_id).results task_id = some rec' ∧
      rec'.final_result = some cr ∧ cr.status = rec'.status ∧
      cr.components = rec.assistant_results ∧
      (rec'.status = "success" ↔ ∀ p ∈ rec.assistant_results, p.2.status = some ("success")) ∧
      (rec'.status ≠ "success" → rec'.status = "partial_success") := by
  refine ⟨_, combinedResultFor now rec.assistant_results,
    combineResults_dictGet_self now o task_id rec hg, rfl, rfl, rfl, ?_, ?_⟩
  · show (combinedResultFor now rec.assistant_results).status = "success" ↔ _
    by_cases hall : rec.assistant_results.all (fun p => p.2.status == some ("success"))
    · constructor
      · intro _ p hp
        have := List.all_eq_true.mp hall p hp
        simpa using this
      · intro _
        simp [combinedResultFor, hall]
    · constructor
      · intro hs
        exfalso
        simp [combinedResultFor, hall] at hs
      · intro hall2
        exfalso
        apply hall
        apply List.all_eq_true.mpr
        intro p hp
        simpa using hall2 p hp
  · intro h
    rcases combinedResultFor_status now rec.assistant_results with h1 | h1
    · exact absurd h1 h
    · exact h1

/-- Witness for C1 at a concrete record with one successful Earth entry. -/
theorem c1_aggregation_rule_witness :
    dictGet oPendingEarth.results "t1" = some recPendingEarth ∧
    (∃ rec' cr, dictGet (combineResults 7 oPendingEarth "t1").results "t1" = some rec' ∧
      rec'.final_result = some cr ∧ cr.status = rec'.status ∧
      cr.components = recPendingEarth.assistant_results ∧
      (rec'.status = "success" ↔
        ∀ p ∈ recPendingEarth.assistant_results, p.2.status = some ("success")) ∧
      (rec'.status ≠ "success" → rec'.status = "partial_success")) :=
  ⟨by decide, c1_aggregation_rule 7 oPendingEarth "t1" recPendingEarth (by decide)⟩

/-- C7: `get_task_status` is a total pure read: an existing id returns its
record unchanged, a missing id returns the structured not-found response
whose status field is `not_found`, and no exception path exists. -/
theorem c7_get_task_status_total (o : Orchestrator) (task_id : String) :
    (∀ rec, dictGet o.results task_id = some rec →
      getTaskStatus o task_id = .record rec ∧
      (getTaskStatus o task_id).statusField = rec.status) ∧
    (dictGet o.results task_id = none →
      getTaskStatus o task_id = .notFound ("Task " ++ task_id ++ " not found") ∧
      (getTaskStatus o task_id).statusField = "not_found") := by
  constructor
  · intro rec hg
    unfold getTaskStatus
    rw [hg]
    exact ⟨rfl, rfl⟩
  · intro hg
    unfold getTaskStatus
    rw [hg]
    exact ⟨rfl, rfl⟩

/-- Witness for C7 on a fresh orchestrator and an unknown id. -/
theorem c7_get_task_status_total_witness :
    dictGet initOrchestrator.results "ghost" = none ∧
    (getTaskStatus initOrchestrator "ghost" = .notFound ("Task " ++ "ghost" ++ " not found") ∧
      (getTaskStatus initOrchestrator "ghost").statusField = "not_found") :=
  ⟨by decide, (c7_get_task_status_total initOrchestrator "ghost").2 (by decide)⟩

/-- C8: immediately after `submit_task`, the returned id maps to a record
with status `pending`, an empty per-worker map, and no final result, and the
task (pending, stamped, routed) was appended to the queue. -/
theorem c8_submit_initial_state (now : Nat) (input : TaskInput) (o : Orchestrator) :
    dictGet ((submitTask now input o).2).results (submitTask now input o).1
      = some ({ status := "pending", assistant_results := [], final_result := none, feedback := none }) ∧
    ∃ task, ((submitTask now input o).2).task_queue = o.task_queue ++ [task] ∧
      task.task_id = (submitTask now input o).1 ∧ task.status = "pending" ∧
      task.timestamp = now ∧ task.assigned_assistants = determineRequiredAssistants input := by
  constructor
  · exact dictGet_dictSet_self o.results _ _
  · exact ⟨_, rfl, rfl, rfl, rfl, rfl⟩

/-- C9: `handle_feedback` on an unknown id is a silent no-op: it returns
normally, delivers nothing to any worker, and leaves the whole state
(queue, results, registry) unchanged. -/
theorem c9_unknown_feedback_noop (o : Orchestrator) (task_id : String) (fb : Feedback)
    (h : dictGet o.results task_id = none) :
    handleFeedback o task_id fb = (o, []) := by
  unfold handleFeedback
  rw [if_neg (by rw [h]; simp)]

/-- Witness for C9 on a fresh orchestrator. -/
theorem c9_unknown_feedback_noop_witness :
    dictGet initOrchestrator.results "ghost2" = none ∧
    handleFeedback initOrchestrator "ghost2" fbMixed = (initOrchestrator, []) :=
  ⟨by decide, c9_unknown_feedback_noop initOrchestrator "ghost2" fbMixed (by decide)⟩

/-- C2: a worker invocation that raises is captured as a
`{'status': 'error', 'error': msg}` entry in the task's result map; every
other assigned worker's result for that task is still stored, the task's
status becomes `partial_success`, every queued task still gets aggregated
(to `success` or `partial_success`), the queue is drained, and
`process_tasks` — a total function here — raises nothing. -/
theorem c2_worker_isolation (env : WorkerEnv) (now : Nat) (o : Orchestrator)
    (t : OrchTask) (rec : TaskRecord) (assistant_name msg : String)
    (hq : t ∈ o.task_queue)
    (hnd : (o.task_queue.map OrchTask.task_id).Nodup)
    (hg : dictGet o.results t.task_id = some rec)
    (hmem : assistant_name ∈ t.assigned_assistants)
    (hexn : processTaskWithAssistant env o.assistants t assistant_name = .exn msg) :
    ∃ rec', dictGet (processTasks env now o).results t.task_id = some rec' ∧
      dictGet rec'.assistant_results assistant_name = some (errorResult msg) ∧
      (∀ n ∈ t.assigned_assistants,
        dictGet rec'.assistant_results n = some (workerResultFor env o.assistants t n)) ∧
      rec'.status = "partial_success" ∧
      (∀ t' ∈ o.task_queue, ∀ rec'',
        dictGet (processTasks env now o).results t'.task_id = some rec'' →
        rec''.status = "success" ∨ rec''.status = "partial_success") ∧
      (processTasks env now o).task_queue = [] := by
  have hwrf : workerResultFor env o.assistants t assistant_name = errorResult msg := by
    unfold workerResultFor
    rw [hexn]
  have hentry : dictGet
      (storedResults env o.assistants t t.assigned_assistants rec.assistant_results)
      assistant_name = some (errorResult msg) := by
    rw [← hwrf]
    exact storedResults_dictGet_mem env o.assistants t t.assigned_assistants
      assistant_name hmem rec.assistant_results
  refine ⟨_, processTasks_record env now o t hq hnd rec hg, hentry, ?_, ?_, ?_,
    processTasks_queue env now o⟩
  · intro n hn
    exact storedResults_dictGet_mem env o.assistants t t.assigned_assistants n hn
      rec.assistant_results
  · show (combinedResultFor now
      (storedResults env o.assistants t t.assigned_assistants rec.assistant_results)).status
        = "partial_success"
    have hmem2 := dictGet_mem hentry
    have hall : (storedResults env o.assistants t t.assigned_assistants
        rec.assistant_results).all (fun p => p.2.status == some ("success")) = false := by
      rcases Bool.eq_false_or_eq_true ((storedResults env o.assistants t t.assigned_assistants
          rec.assistant_results).all (fun p => p.2.status == some ("success"))) with hb | hb
      · exfalso
        have := List.all_eq_true.mp hb _ hmem2
        simp [errorResult] at this
      · exact hb
    simp [combinedResultFor, hall]
  · intro t' ht' rec'' h''
    exact processTasks_finalizedAt env now o t' ht' rec'' h''

/-- Witness for C2: a `full_pipeline` task whose Moon invocation raises. -/
theorem c2_worker_isolation_witness :
    ∃ rec', dictGet (processTasks envMoonFails 1 oAfterSubmitFP).results
        tFullPipeline.task_id = some rec' ∧
      dictGet rec'.assistant_results "Moon" = some (errorResult ("Moon crashed")) ∧
      (∀ n ∈ tFullPipeline.assigned_assistants,
        dictGet rec'.assistant_results n
          = some (workerResultFor envMoonFails oAfterSubmitFP.assistants tFullPipeline n)) ∧
      rec'.status = "partial_success" ∧
      (∀ t' ∈ oAfterSubmitFP.task_queue, ∀ rec'',
        dictGet (processTasks envMoonFails 1 oAfterSubmitFP).results t'.task_id = some rec'' →
        rec''.status = "success" ∨ rec''.status = "partial_success") ∧
      (processTasks envMoonFails 1 oAfterSubmitFP).task_queue = [] :=
  c2_worker_isolation envMoonFails 1 oAfterSubmitFP tFullPipeline recFresh "Moon"
    ("Moon crashed") (by decide) (by decide) (by decide) (by decide) (by decide)

/-- C4: `_determine_required_assistants` is a pure lookup in the static
table — `code_generation`, `syntax_check`, `performance_optimization` and
`full_pipeline` map to their configured worker lists, every other type
(including a missing `type` key) maps to the default `['Earth']` — so its
result is never empty, and `submit_task` stores exactly it on the task. -/
theorem c4_routing_table (input : TaskInput) :
    (input.type? = some ("code_generation") → determineRequiredAssistants input = ["Earth"]) ∧
    (input.type? = some ("syntax_check") → determineRequiredAssistants input = ["Moon"]) ∧
    (input.type? = some ("performance_optimization") →
      determineRequiredAssistants input = ["Sun"]) ∧
    (input.type? = some ("full_pipeline") →
      determineRequiredAssistants input = ["Earth", "Moon", "Sun"]) ∧
    (input.type? = none → determineRequiredAssistants input = ["Earth"]) ∧
    (∀ ty, input.type? = some ty → ty ≠ "code_generation" → ty ≠ "syntax_check" →
      ty ≠ "performance_optimization" → ty ≠ "full_pipeline" →
      determineRequiredAssistants input = ["Earth"]) ∧
    determineRequiredAssistants input ≠ [] ∧
    (∀ now o, ∃ task, ((submitTask now input o).2).task_queue = o.task_queue ++ [task] ∧
      task.assigned_assistants = determineRequiredAssistants input ∧
      task.assigned_assistants ≠ []) := by
  refine ⟨?_, ?_, ?_, ?_, ?_, ?_, determineRequiredAssistants_ne_nil input, ?_⟩
  · intro h
    simp [determineRequiredAssistants, h, taskAssistantMapping, dictGet]
  · intro h
    simp [determineRequiredAssistants, h, taskAssistantMapping, dictGet]
  · intro h
    simp [determineRequiredAssistants, h, taskAssistantMapping, dictGet]
  · intro h
    simp [determineRequiredAssistants, h, taskAssistantMapping, dictGet]
  · intro h
    simp [determineRequiredAssistants, h, taskAssistantMapping, dictGet]
  · intro ty h h1 h2 h3 h4
    simp [determineRequiredAssistants, h, taskAssistantMapping, dictGet,
      Ne.symm h1, Ne.symm h2, Ne.symm h3, Ne.symm h4]
  · intro now o
    exact ⟨_, rfl, rfl, determineRequiredAssistants_ne_nil input⟩

/-- Witness for C4 at concrete mapped, unmapped and missing types. -/
theorem c4_routing_table_witness :
    determineRequiredAssistants { type? := some ("syntax_check") } = ["Moon"] ∧
    determineRequiredAssistants { type? := some ("weird") } = ["Earth"] ∧
    determineRequiredAssistants { type? := none } = ["Earth"] ∧
    determineRequiredAssistants fpInput ≠ [] :=
  ⟨(c4_routing_table { type? := some ("syntax_check") }).2.1 rfl,
   (c4_routing_table { type? := some ("weird") }).2.2.2.2.2.1 ("weird") rfl
     (by decide) (by decide) (by decide) (by decide),
   (c4_routing_table { type? := none }).2.2.2.2.1 rfl,
   (c4_routing_table fpInput).2.2.2.2.2.2.1⟩

/-- C3 evaluation: two `submit_task` calls during the same clock second
(`int(time.time()) = 5`), with a `process_tasks` call draining the queue in
between, both return the id `task_5_0` — the id scheme
`task_{int(time.time())}_{len(task_queue)}` is not unique. -/
theorem c3_submit_id_collision :
    (submitTask 5 cgInput initOrchestrator).1 = "task_5_0" ∧
    (submitTask 5 cgInput
        (processTasks envAllOk 5 (submitTask 5 cgInput initOrchestrator).2)).1
      = "task_5_0" := by
  constructor
  · rfl
  · rfl

/-- C5 counterexample: a task whose status first reaches `partial_success`
does not increase `completed_tasks` — the counter stays 0 where the claim
demands 1, because `get_system_status` counts only `success` and
`completed_with_feedback`. -/
theorem c5_counterexample_partial_not_counted :
    (getSystemStatus (submitTask 0 cgInput initOrchestrator).2).completed_tasks = 0 ∧
    (dictGet (processTasks envEarthFails 0
        (submitTask 0 cgInput initOrchestrator).2).results "task_0_0").map
        TaskRecord.status = some ("partial_success") ∧
    (getSystemStatus (processTasks envEarthFails 0
        (submitTask 0 cgInput initOrchestrator).2)).completed_tasks = 0 ∧
    (getSystemStatus (processTasks envEarthFails 0
        (submitTask 0 cgInput initOrchestrator).2)).completed_tasks ≠ 1 := by
  refine ⟨by decide, by decide, by decide, by decide⟩

/-- C5 (amended): `completed_tasks` counts records currently in `success` or
`completed_with_feedback` (not `partial_success`); applying feedback to a
task already counted leaves the counter unchanged (no double count, e.g.
`success → completed_with_feedback`), applying it to an uncounted task
raises the counter by exactly one, and aggregation adds one exactly when
the task combines to `success`. -/
theorem c5_completed_count (o : Orchestrator) (task_id : String) (fb : Feedback)
    (rec : TaskRecord) (hg : dictGet o.results task_id = some rec) :
    ((rec.status = "success" ∨ rec.status = "completed_with_feedback") →
      (getSystemStatus (handleFeedback o task_id fb).1).completed_tasks
        = (getSystemStatus o).completed_tasks) ∧
    ((rec.status ≠ "success" ∧ rec.status ≠ "completed_with_feedback") →
      (getSystemStatus (handleFeedback o task_id fb).1).completed_tasks
        = (getSystemStatus o).completed_tasks + 1) ∧
    (∀ now, (rec.status ≠ "success" ∧ rec.status ≠ "completed_with_feedback") →
      (getSystemStatus (combineResults now o task_id)).completed_tasks
        = (getSystemStatus o).completed_tasks
          + (if rec.assistant_results.all (fun p => p.2.status == some ("success"))
             then 1 else 0)) := by
  have hres : ((handleFeedback o task_id fb).1).results
      = dictUpdate o.results task_id
          (fun r => { r with feedback := some fb, status := "completed_with_feedback" }) := by
    unfold handleFeedback
    rw [if_pos (by rw [hg]; rfl)]
  have heqF := filter_length_dictUpdate
    (fun p => p.2.status == "success" || p.2.status == "completed_with_feedback")
    o.results task_id
    (fun r => { r with feedback := some fb, status := "completed_with_feedback" }) rec hg
  refine ⟨?_, ?_, ?_⟩
  · intro hA
    have hPold : ((fun p : String × TaskRecord =>
        p.2.status == "success" || p.2.status == "completed_with_feedback")
          (task_id, rec)) = true := by
      rcases hA with h | h <;> simp [h]
    rw [hPold] at heqF
    simp only [if_true, Bool.or_true, if_pos] at heqF
    have hcalc : (((handleFeedback o task_id fb).1).results.filter
        (fun p => p.2.status == "success" || p.2.status == "completed_with_feedback")).length
        = ((dictUpdate o.results task_id
            (fun r => { r with feedback := some fb, status := "completed_with_feedback" })).filter
            (fun p => p.2.status == "success" || p.2.status == "completed_with_feedback")).length := by
      rw [hres]
    show (((handleFeedback o task_id fb).1).results.filter
        (fun p => p.2.status == "success" || p.2.status == "completed_with_feedback")).length
      = (o.results.filter
          (fun p => p.2.status == "success" || p.2.status == "completed_with_feedback")).length
    rw [hcalc]
    simp at heqF
    omega
  · intro hB
    have hPold : ((fun p : String × TaskRecord =>
        p.2.status == "success" || p.2.status == "completed_with_feedback")
          (task_id, rec)) = false := by
      simp [hB.1, hB.2]
    rw [hPold] at heqF
    show (((handleFeedback o task_id fb).1).results.filter
        (fun p => p.2.status == "success" || p.2.status == "completed_with_feedback")).length
      = (o.results.filter
          (fun p => p.2.status == "success" || p.2.status == "completed_with_feedback")).length + 1
    rw [hres]
    simp at heqF
    omega
  · intro now2 hB
    have hcres : (combineResults now2 o task_id).results
        = dictUpdate o.results task_id
            (fun r => { r with
              status := (combinedResultFor now2 rec.assistant_results).status,
              final_result := some (combinedResultFor now2 rec.assistant_results) }) := by
      unfold combineResults
      rw [hg]
    have heqC := filter_length_dictUpdate
      (fun p => p.2.status == "success" || p.2.status == "completed_with_feedback")
      o.results task_id
      (fun r => { r with
        status := (combinedResultFor now2 rec.assistant_results).status,
        final_result := some (combinedResultFor now2 rec.assistant_results) }) rec hg
    have hPold : ((fun p : String × TaskRecord =>
        p.2.status == "success" || p.2.status == "completed_with_feedback")
          (task_id, rec)) = false := by
      simp [hB.1, hB.2]
    rw [hPold] at heqC
    show ((combineResults now2 o task_id).results.filter
        (fun p => p.2.status == "success" || p.2.status == "completed_with_feedback")).length
      = (o.results.filter
          (fun p => p.2.status == "success" || p.2.status == "completed_with_feedback")).length
        + _
    rw [hcres]
    by_cases hall : rec.assistant_results.all (fun p => p.2.status == some ("success"))
    · have hPnew : ((fun p : String × TaskRecord =>
          p.2.status == "success" || p.2.status == "completed_with_feedback")
            (task_id, { rec with
              status := (combinedResultFor now2 rec.assistant_results).status,
              final_result := some (combinedResultFor now2 rec.assistant_results) })) = true := by
        simp [combinedResultFor, hall]
      rw [hPnew] at heqC
      rw [if_pos hall]
      simp at heqC
      omega
    · have hPnew : ((fun p : String × TaskRecord =>
          p.2.status == "success" || p.2.status == "completed_with_feedback")
            (task_id, { rec with
              status := (combinedResultFor now2 rec.assistant_results).status,
              final_result := some (combinedResultFor now2 rec.assistant_results) })) = false := by
        simp [combinedResultFor, hall]
      rw [hPnew] at heqC
      rw [if_neg hall]
      simp at heqC
      omega

/-- Witness for C5 (amended): feedback on a `partial_success` task adds one
to the completed count. -/
theorem c5_completed_count_witness :
    dictGet oPartial.results "t1" = some recPartial ∧
    (getSystemStatus (handleFeedback oPartial "t1" fbEmpty).1).completed_tasks
      = (getSystemStatus oPartial).completed_tasks + 1 :=
  ⟨by decide,
   (c5_completed_count oPartial "t1" fbEmpty recPartial (by decide)).2.1
     (by exact ⟨by decide, by decide⟩)⟩

/-- C6: for an existing task id, `handle_feedback` delivers exactly the
`assistant_feedback` entries whose worker name is registered (unregistered
names are skipped silently without blocking the others), stores the
feedback on the record, sets the status to `completed_with_feedback`, and a
repeated call succeeds with last-write-wins on the stored feedback. -/
theorem c6_feedback_routing (o : Orchestrator) (task_id : String) (fb : Feedback)
    (rec : TaskRecord) (hg : dictGet o.results task_id = some rec) :
    (∀ n p, (n, p) ∈ (handleFeedback o task_id fb).2 →
      n ∈ o.assistants ∧ (n, p) ∈ fb.assistant_feedback) ∧
    (∀ n p, (n, p) ∈ fb.assistant_feedback → n ∈ o.assistants →
      (n, p) ∈ (handleFeedback o task_id fb).2) ∧
    (dictGet ((handleFeedback o task_id fb).1).results task_id
      = some ({ rec with feedback := some fb, status := "completed_with_feedback" })) ∧
    (∀ fb2, dictGet ((handleFeedback (handleFeedback o task_id fb).1 task_id fb2).1).results
        task_id
      = some ({ rec with feedback := some fb2, status := "completed_with_feedback" })) := by
  have hsome : (dictGet o.results task_id).isSome := by rw [hg]; rfl
  have hdel := handleFeedback_deliveries o task_id fb hsome
  refine ⟨?_, ?_, handleFeedback_dictGet_self o task_id fb rec hg, ?_⟩
  · intro n p hmem
    rw [hdel] at hmem
    have hparts := List.mem_filter.mp hmem
    exact ⟨List.elem_iff.mp hparts.2, hparts.1⟩
  · intro n p hin hreg
    rw [hdel]
    exact List.mem_filter.mpr ⟨hin, List.elem_iff.mpr hreg⟩
  · intro fb2
    exact handleFeedback_dictGet_self (handleFeedback o task_id fb).1 task_id fb2
      ({ rec with feedback := some fb, status := "completed_with_feedback" })
      (handleFeedback_dictGet_self o task_id fb rec hg)

/-- Witness for C6: mixed feedback naming Earth (registered) and Pluto
(unregistered) on an existing task. -/
theorem c6_feedback_routing_witness :
    dictGet oPendingEarth.results "t1" = some recPendingEarth ∧
    ("Earth", "good") ∈ (handleFeedback oPendingEarth "t1" fbMixed).2 ∧
    dictGet ((handleFeedback oPendingEarth "t1" fbMixed).1).results "t1"
      = some ({ recPendingEarth with feedback := some fbMixed, status := "completed_with_feedback" }) :=
  ⟨by decide,
   (c6_feedback_routing oPendingEarth "t1" fbMixed recPendingEarth (by decide)).2.1
     "Earth" "good" (by decide) (by decide),
   (c6_feedback_routing oPendingEarth "t1" fbMixed recPendingEarth (by decide)).2.2.1⟩

/-- C10 counterexample: the id collision of the submit scheme lets a later
submission overwrite a `success` record back to `pending`, so
`completed_with_feedback` is not the only transition out of `success`. -/
theorem c10_counterexample_success_to_pending :
    (dictGet (processTasks envAllOk 5 (submitTask 5 cgInput initOrchestrator).2).results
        "task_5_0").map TaskRecord.status = some ("success") ∧
    (dictGet ((submitTask 5 cgInput
        (processTasks envAllOk 5 (submitTask 5 cgInput initOrchestrator).2)).2).results
        "task_5_0").map TaskRecord.status = some ("pending") :=
  ⟨by decide, by decide⟩

/-- C10 (amended): no reachable record ever has status `error`; after
`process_tasks` every task that was queued (and still has a record) is in
`success` or `partial_success` — even when all its workers errored; and any
single operation moves a `success`/`partial_success` record only to
`success`, `partial_success`, `completed_with_feedback`, or — when a
colliding submission overwrites the id — back to `pending`. -/
theorem c10_no_error_status :
    (∀ o, Reachable o → ∀ id rec, dictGet o.results id = some rec → rec.status ≠ "error") ∧
    (∀ (env : WorkerEnv) (now : Nat) (o : Orchestrator), ∀ t ∈ o.task_queue, ∀ rec,
      dictGet (processTasks env now o).results t.task_id = some rec →
      rec.status = "success" ∨ rec.status = "partial_success") ∧
    (∀ o o', Step o o' → ∀ id rec rec', dictGet o.results id = some rec →
      (rec.status = "success" ∨ rec.status = "partial_success") →
      dictGet o'.results id = some rec' →
      (rec'.status = "success" ∨ rec'.status = "partial_success" ∨
        rec'.status = "completed_with_feedback" ∨ rec'.status = "pending")) := by
  refine ⟨?_, ?_, ?_⟩
  · intro o ho id rec hrec
    rcases reachable_statusesOk ho id rec hrec with h | h | h | h <;> rw [h] <;> decide
  · intro env now o t ht rec h
    exact processTasks_finalizedAt env now o t ht rec h
  · intro o o' hstep id rec rec' hg hst hg'
    rcases step_statusEvolution hstep id rec' hg' with ⟨rec0, hg0, hsame⟩ | hok
    · rw [hg0] at hg
      injection hg with he
      rw [hsame, he]
      rcases hst with h | h
      · exact .inl h
      · exact .inr (.inl h)
    · rcases hok with h | h | h | h
      · exact .inr (.inr (.inr h))
      · exact .inl h
      · exact .inr (.inl h)
      · exact .inr (.inr (.inl h))

/-- Witness for C10 (amended): a feedback step moves a concrete `success`
record to `completed_with_feedback`, inside the allowed transition set. -/
theorem c10_no_error_status_witness :
    dictGet oSuccess.results "t1" = some recSuccess ∧
    (recSuccessFb.status = "success" ∨ recSuccessFb.status = "partial_success" ∨
      recSuccessFb.status = "completed_with_feedback" ∨ recSuccessFb.status = "pending") :=
  ⟨by decide,
   c10_no_error_status.2.2 oSuccess (handleFeedback oSuccess "t1" fbEmpty).1
     (Step.feedback "t1" fbEmpty oSuccess) "t1" recSuccess recSuccessFb (by decide)
     (Or.inl (by decide)) (by decide)⟩
